import Mathlib

/-!
Verification of the payment-schedule / payment-recording core of the
MANA88 CMS repository.

The definitions below are a shallow embedding of the TypeScript source:

* `src/src/hooks/usePayments.ts` — `useRecordPayment` (payment insert plus
  the inline allocation step), `useGenerateSchedule`, `useOverduePayments`,
  `calculatePaymentTotals`;
* `src/src/pages/CaseNew.tsx` — `recalculate` and `generateSchedule`.

Modelling conventions:

* Monetary amounts (`number` in TypeScript, `numeric` in the database) are
  embedded as `ℚ`.  JavaScript `Math.round(x * 100) / 100` becomes
  `round2` below (`Math.round` is `⌊x + 1/2⌋`).
* ISO-8601 date strings are embedded as `Nat` day numbers: the string
  comparison `.lt('due_date', today)` on ISO dates is order-isomorphic to
  `<` on day numbers.  A date string that JavaScript fails to parse
  (`new Date(s)` is an Invalid Date) is embedded as `Option.none`.
* The Supabase tables touched by the hooks are embedded as an explicit
  record of lists (`DB`); a failing insert (foreign-key violation on a
  nonexistent case) is the thrown `paymentError`.
* The schedule status string `'partial'` is spelled `partPaid` here
  (`partial` is a Lean keyword).
-/

namespace Mana88

/-- Payment categories, from `PaymentType` in `src/src/types/index.ts`. -/
inductive PaymentType where
  | reserva
  | enganche
  | mensualidad
  | entrega
  | balloon
  | adjustment
  | refund
deriving DecidableEq

/-- Installment statuses, from `ScheduleStatus` in `src/src/types/index.ts`.
The source string `'partial'` is spelled `partPaid` (keyword clash). -/
inductive ScheduleStatus where
  | pending
  | paid
  | partPaid
  | overdue
  | waived
deriving DecidableEq

/-- A `payment_schedule` row, from `PaymentScheduleItem` in the types file
(id, audit and note fields that no claim touches are elided). -/
structure PaymentScheduleItem where
  id : Nat
  case_id : Nat
  schedule_index : Nat
  payment_type : PaymentType
  amount_mxn : ℚ
  due_date : Nat
  status : ScheduleStatus
  paid_amount_mxn : ℚ
  paid_date : Option Nat
deriving DecidableEq

/-- A `cms_payments` row, from `Payment` in the types file (proof/receipt
and audit fields that no claim touches are elided). -/
structure Payment where
  case_id : Nat
  schedule_id : Option Nat
  payment_date : Nat
  amount_mxn : ℚ
  payment_type : PaymentType
deriving DecidableEq

/-- Input of `useRecordPayment`, from `RecordPaymentInput` in the types
file (channel/reference/proof/notes elided). -/
structure RecordPaymentInput where
  case_id : Nat
  schedule_id : Option Nat
  payment_date : Nat
  amount_mxn : ℚ
  payment_type : PaymentType
deriving DecidableEq

/-- The rows the payment hooks read and write: the `cases` table reduced to
its ids, the `payment_schedule` table and the `cms_payments` table. -/
structure DB where
  cases : List Nat
  schedule : List PaymentScheduleItem
  payments : List Payment
deriving DecidableEq

/-- The one failure `useRecordPayment` propagates: the thrown
`paymentError` of the `cms_payments` insert.  Per the table's DDL
(`CREATE TABLE cms_payments` in `docs/MIGRATION_PLAN.md`) the insert
enforces two foreign keys — `case_id UUID REFERENCES cases(id) NOT NULL`
and the nullable `schedule_id UUID REFERENCES payment_schedule(id)` — so
it throws when `case_id` matches no case row or a non-null `schedule_id`
matches no schedule row. -/
inductive DBError where
  | foreignKeyViolation
deriving DecidableEq

/-- The allocation step inlined in `useRecordPayment`
(`src/src/hooks/usePayments.ts` lines 161–173), as the per-row function the
spec calls `applyPaymentToInstallment`:
`newPaidAmount = (paid_amount_mxn || 0) + amount`, `isPaid = newPaidAmount
>= amount_mxn`, then the row's `paid_amount_mxn`, `paid_date` and `status`
are overwritten. -/
def applyPaymentToInstallment (item : PaymentScheduleItem) (amount : ℚ)
    (paymentDate : Nat) : PaymentScheduleItem :=
  let newPaidAmount := item.paid_amount_mxn + amount
  { item with
    paid_amount_mxn := newPaidAmount
    paid_date := some paymentDate
    status := if item.amount_mxn ≤ newPaidAmount then .paid else .partPaid }

/-- The `cms_payments` row built by the insert in `useRecordPayment`. -/
def paymentRowOf (input : RecordPaymentInput) : Payment :=
  { case_id := input.case_id
    schedule_id := input.schedule_id
    payment_date := input.payment_date
    amount_mxn := input.amount_mxn
    payment_type := input.payment_type }

/-- `mutationFn` of `useRecordPayment` (`src/src/hooks/usePayments.ts`
lines 135–177).  The insert throws its `paymentError` when either foreign
key of `cms_payments` is violated: `case_id` matching no case row, or a
non-null `schedule_id` matching no `payment_schedule` row
(`docs/MIGRATION_PLAN.md`, `CREATE TABLE cms_payments`).  After a
successful insert, when `schedule_id` is given, the `.single()` fetch of
the schedule row is destructured as `{ data: scheduleItem }` — its error
is ignored — and the allocation update runs only `if (scheduleItem)`,
i.e. only when the fetch returned exactly one row; the update's own
result is also ignored.  The inserted payment is returned. -/
def useRecordPayment (db : DB) (input : RecordPaymentInput) :
    Except DBError (Payment × DB) :=
  if db.cases.contains input.case_id &&
      input.schedule_id.all (fun sid => db.schedule.any fun it => it.id == sid) then
    let payment := paymentRowOf input
    let db1 : DB := { db with payments := db.payments ++ [payment] }
    match input.schedule_id with
    | none => .ok (payment, db1)
    | some sid =>
      match db1.schedule.filter (fun it => it.id == sid) with
      | [item] =>
        let newPaidAmount := item.paid_amount_mxn + input.amount_mxn
        let newStatus : ScheduleStatus :=
          if item.amount_mxn ≤ newPaidAmount then .paid else .partPaid
        let schedule2 := db1.schedule.map fun it =>
          if it.id == sid then
            { it with
              paid_amount_mxn := newPaidAmount
              paid_date := some input.payment_date
              status := newStatus }
          else it
        .ok (payment, { db1 with schedule := schedule2 })
      | _ => .ok (payment, db1)
  else
    .error .foreignKeyViolation

/-- JavaScript `Math.round(x * 100) / 100`: round to 2 decimals,
half away from zero upward (`Math.round y = ⌊y + 1/2⌋`). -/
def round2 (x : ℚ) : ℚ := ((⌊x * 100 + 1 / 2⌋ : ℤ) : ℚ) / 100

/-- Result record of `calculatePaymentTotals`. -/
structure PaymentTotals where
  totalScheduled : ℚ
  totalPaid : ℚ
  totalRefunded : ℚ
  balance : ℚ
  percentPaid : ℚ
deriving DecidableEq

/-- `calculatePaymentTotals` (`src/src/hooks/usePayments.ts` lines
267–285): reductions over the payments array split on `payment_type ===
'refund'`, `balance = totalScheduled - totalPaid + totalRefunded`,
`percentPaid` rounded to 2 decimals. -/
def calculatePaymentTotals (payments : List Payment)
    (schedule : Option (List PaymentScheduleItem)) : PaymentTotals :=
  let totalScheduled :=
    match schedule with
    | some s => s.foldl (fun sum item => sum + item.amount_mxn) 0
    | none => 0
  let totalPaid :=
    (payments.filter (fun p => p.payment_type != .refund)).foldl
      (fun sum p => sum + p.amount_mxn) 0
  let totalRefunded :=
    (payments.filter (fun p => p.payment_type == .refund)).foldl
      (fun sum p => sum + p.amount_mxn) 0
  let balance := totalScheduled - totalPaid + totalRefunded
  let percentPaid :=
    if 0 < totalScheduled then totalPaid / totalScheduled * 100 else 0
  { totalScheduled := totalScheduled
    totalPaid := totalPaid
    totalRefunded := totalRefunded
    balance := balance
    percentPaid := round2 percentPaid }

/-- `reservation` / `down_payment` / `final` sub-specs of
`GenerateScheduleInput` (types file): an amount and a date string.  The
date is passed through verbatim by the generator (never parsed), so an
unparseable string is representable here too (`none`). -/
structure PlanPart where
  amount : ℚ
  date : Option Nat
deriving DecidableEq

/-- `monthly` sub-spec of `GenerateScheduleInput`: amount, count and a
start-date string.  The generator parses the start date with `new Date`;
`none` models a string that parses to an Invalid Date. -/
structure MonthlyPart where
  amount : ℚ
  count : Int
  start_date : Option Nat
deriving DecidableEq

/-- `GenerateScheduleInput` from the types file: `reservation` is
required, the other three parts optional. -/
structure GenerateScheduleInput where
  case_id : Nat
  reservation : PlanPart
  down_payment : Option PlanPart
  monthly : Option MonthlyPart
  final : Option PlanPart
deriving DecidableEq

/-- A `Partial<PaymentScheduleItem>` row as built by `useGenerateSchedule`
before insertion.  `due_date` is the raw input date for the
reservation/down/final rows and `start_date + i` months for monthly row
`i` (month arithmetic abstracted as `+ i`; no claim depends on the
resulting dates). -/
structure NewScheduleRow where
  case_id : Nat
  schedule_index : Nat
  payment_type : PaymentType
  label : String
  amount_mxn : ℚ
  due_date : Option Nat
  status : ScheduleStatus
  paid_amount_mxn : ℚ
deriving DecidableEq

/-- The one way `useGenerateSchedule` itself can throw before the insert:
`dueDate.toISOString()` raises a `RangeError` when the monthly start date
parsed to an Invalid Date (reached only when `monthly.count > 0`). -/
inductive GenError where
  | invalidDate
deriving DecidableEq

/-- The unconditional first `scheduleItems.push` of `useGenerateSchedule`
(index 0, type `'reserva'`). -/
def reservationRow (input : GenerateScheduleInput) : NewScheduleRow :=
  { case_id := input.case_id
    schedule_index := 0
    payment_type := .reserva
    label := "Reserva"
    amount_mxn := input.reservation.amount
    due_date := input.reservation.date
    status := .pending
    paid_amount_mxn := 0 }

/-- The `if (input.down_payment)` push of `useGenerateSchedule`
(type `'enganche'`, always at index 1 when present). -/
def downRows (input : GenerateScheduleInput) : List NewScheduleRow :=
  match input.down_payment with
  | some d =>
    [{ case_id := input.case_id
       schedule_index := 1
       payment_type := .enganche
       label := "Enganche"
       amount_mxn := d.amount
       due_date := d.date
       status := .pending
       paid_amount_mxn := 0 }]
  | none => []

/-- The monthly loop of `useGenerateSchedule`: `count` rows of type
`'mensualidad'`, row `i` at index `idx + i`, dated `start + i` months. -/
def monthlyRows (input : GenerateScheduleInput) (idx : Nat) (m : MonthlyPart)
    (start : Nat) : List NewScheduleRow :=
  (List.range m.count.toNat).map fun i =>
    { case_id := input.case_id
      schedule_index := idx + i
      payment_type := .mensualidad
      label := "Mensualidad " ++ toString (i + 1)
      amount_mxn := m.amount
      due_date := some (start + i)
      status := .pending
      paid_amount_mxn := 0 }

/-- The `if (input.final)` push of `useGenerateSchedule`
(type `'entrega'`, at the running index after the monthly rows). -/
def finalRows (input : GenerateScheduleInput) (idx : Nat) :
    List NewScheduleRow :=
  match input.final with
  | some f =>
    [{ case_id := input.case_id
       schedule_index := idx
       payment_type := .entrega
       label := "Entrega (10%)"
       amount_mxn := f.amount
       due_date := f.date
       status := .pending
       paid_amount_mxn := 0 }]
  | none => []

/-- `mutationFn` of `useGenerateSchedule` (`src/src/hooks/usePayments.ts`
lines 191–258): pushes reservation, optional down payment, the monthly
loop guarded by `input.monthly && input.monthly.count > 0`, and the
optional final row, with a single running index; the returned list is what
the hook hands to the insert.  No input is validated: the only failure is
the `toISOString` throw on an Invalid monthly start date inside the loop. -/
def useGenerateSchedule (input : GenerateScheduleInput) :
    Except GenError (List NewScheduleRow) :=
  let res := [reservationRow input]
  let dRows := downRows input
  let idx2 := 1 + dRows.length
  match input.monthly with
  | some m =>
    if 0 < m.count then
      match m.start_date with
      | none => .error .invalidDate
      | some start =>
        .ok (res ++ dRows ++ monthlyRows input idx2 m start ++
          finalRows input (idx2 + m.count.toNat))
    else .ok (res ++ dRows ++ finalRows input idx2)
  | none => .ok (res ++ dRows ++ finalRows input idx2)

/-- The query of `useOverduePayments` (`src/src/hooks/usePayments.ts`
lines 105–125): rows of `payment_schedule` with
`.in('status', ['pending', 'partial'])` and `.lt('due_date', today)`,
ordered by `due_date` (the ordering does not affect which rows are
selected and is omitted). -/
def useOverduePayments (today : Nat) (rows : List PaymentScheduleItem) :
    List PaymentScheduleItem :=
  rows.filter fun it =>
    (it.status == .pending || it.status == .partPaid) &&
      decide (it.due_date < today)

/-- The overdue-rows selection of the `case_summary` view
(`docs/MIGRATION_PLAN.md`, `CREATE VIEW case_summary`): schedule rows with
`due_date < CURRENT_DATE` and `status IN ('pending', 'partial',
'overdue')`. -/
def overdueRowsView (today : Nat) (rows : List PaymentScheduleItem) :
    List PaymentScheduleItem :=
  rows.filter fun it =>
    (it.status == .pending || it.status == .partPaid ||
      it.status == .overdue) && decide (it.due_date < today)

/-- `overdue_amount_mxn` of the `case_summary` view
(`docs/MIGRATION_PLAN.md`): `SUM(ps.amount_mxn - ps.paid_amount_mxn)`
over the rows selected by `overdueRowsView`.  This computation is
database DDL recorded in the repository's migration plan; the TypeScript
pages (Dashboard) only read the resulting `overdue_amount_mxn` column. -/
def overdueAmount (today : Nat) (rows : List PaymentScheduleItem) : ℚ :=
  ((overdueRowsView today rows).map
    (fun it => it.amount_mxn - it.paid_amount_mxn)).sum

/-- Result of `recalculate` in `src/src/pages/CaseNew.tsx` (the three
amount fields it writes back into the form state). -/
structure RecalcResult where
  downPaymentMxn : ℚ
  monthlyAmount : ℚ
  finalPaymentMxn : ℚ
deriving DecidableEq

/-- `recalculate` (`src/src/pages/CaseNew.tsx` lines 64–83): returns
`none` when the guard `!preset || salePrice <= 0` bails out; otherwise
`down` and `final` are percentages of the sale price rounded to 2
decimals and the monthly amount is the rounded quotient of the remainder
(0 when the plan has no monthly payments). -/
def recalculate (salePrice downPct finalPct : ℚ) (monthlyCount : Nat) :
    Option RecalcResult :=
  if salePrice ≤ 0 then none
  else
    let downMxn := round2 (salePrice * downPct / 100)
    let finalMxn := round2 (salePrice * finalPct / 100)
    let monthlyTotal := salePrice - downMxn - finalMxn
    let monthlyMxn :=
      if 0 < monthlyCount then round2 (monthlyTotal / (monthlyCount : ℚ))
      else 0
    some
      { downPaymentMxn := downMxn
        monthlyAmount := monthlyMxn
        finalPaymentMxn := finalMxn }

/-- A `ScheduleItem` as built by `generateSchedule` in `CaseNew.tsx`
(type, label, amount; the due dates — today, today + 30 days, month
offsets — are elided: no claim depends on them). -/
structure CaseNewItem where
  type : PaymentType
  label : String
  amount : ℚ
deriving DecidableEq

/-- `generateSchedule` (`src/src/pages/CaseNew.tsx` lines 99–154): a fixed
`50000` reservation, then `downPaymentMxn − 50000` as `enganche` when
`downPaymentMxn > 0`, then `monthlyCount` rows of `monthlyAmount` when
both are positive, then `finalPaymentMxn` as `entrega` when positive. -/
def generateSchedule (downPaymentMxn monthlyAmount finalPaymentMxn : ℚ)
    (monthlyCount : Nat) : List CaseNewItem :=
  [{ type := .reserva, label := "Reserva", amount := 50000 }] ++
  (if 0 < downPaymentMxn then
    [{ type := .enganche, label := "Enganche",
       amount := downPaymentMxn - 50000 }]
  else []) ++
  (if 0 < monthlyCount ∧ 0 < monthlyAmount then
    (List.range monthlyCount).map fun i =>
      { type := .mensualidad, label := "Mensualidad " ++ toString (i + 1),
        amount := monthlyAmount }
  else []) ++
  (if 0 < finalPaymentMxn then
    [{ type := .entrega, label := "Entrega (10%)",
       amount := finalPaymentMxn }]
  else [])

/-- Sum of the amounts of a generated `CaseNew` schedule. -/
def scheduleTotal (items : List CaseNewItem) : ℚ :=
  (items.map (fun it => it.amount)).sum

/-! ### Helper lemmas -/

lemma eq_of_filter_eq_singleton {α : Type} {p : α → Bool} {l : List α}
    {a : α} (h : l.filter p = [a]) : ∀ x ∈ l, p x → x = a := by
  induction l with
  | nil => simp
  | cons y ys ih =>
    intro x hx hpx
    by_cases hy : p y
    · rw [List.filter_cons_of_pos hy] at h
      have h' : y = a ∧ ys.filter p = [] := by
        constructor
        · exact (List.cons.injEq _ _ _ _ ▸ h).1
        · exact (List.cons.injEq _ _ _ _ ▸ h).2
      rcases List.mem_cons.mp hx with rfl | hx'
      · exact h'.1
      · exact absurd hpx (by simpa using List.filter_eq_nil_iff.mp h'.2 x hx')
    · rw [List.filter_cons_of_neg hy] at h
      rcases List.mem_cons.mp hx with rfl | hx'
      · exact absurd hpx hy
      · exact ih h x hx' hpx

/-! ### Concrete fixtures used by witnesses and counterexamples -/

/-- A pending installment with `amount_mxn = 100`, nothing paid. -/
def itemC4 : PaymentScheduleItem :=
  { id := 1, case_id := 1, schedule_index := 0, payment_type := .mensualidad
    amount_mxn := 100, due_date := 20, status := .pending
    paid_amount_mxn := 0, paid_date := none }

/-- A waived installment with `amount_mxn = 100`, nothing paid. -/
def itemC5 : PaymentScheduleItem :=
  { id := 3, case_id := 5, schedule_index := 2, payment_type := .mensualidad
    amount_mxn := 100, due_date := 25, status := .waived
    paid_amount_mxn := 0, paid_date := none }

/-- Tables holding the waived installment `itemC5` for case 5. -/
def dbC5 : DB := { cases := [5], schedule := [itemC5], payments := [] }

/-- A payment of 10 for case 5 linked to the waived installment. -/
def inputC5 : RecordPaymentInput :=
  { case_id := 5, schedule_id := some 3, payment_date := 4
    amount_mxn := 10, payment_type := .mensualidad }

/-- Tables with case 1 and an empty payment schedule. -/
def dbC6 : DB := { cases := [1], schedule := [], payments := [] }

/-- A payment for case 1 linked to schedule id 7, which has no row. -/
def inputC6 : RecordPaymentInput :=
  { case_id := 1, schedule_id := some 7, payment_date := 3
    amount_mxn := 100, payment_type := .mensualidad }

/-- A pending installment with id 5 and `amount_mxn = 200`. -/
def itemC1 : PaymentScheduleItem :=
  { id := 5, case_id := 1, schedule_index := 1, payment_type := .enganche
    amount_mxn := 200, due_date := 15, status := .pending
    paid_amount_mxn := 0, paid_date := none }

/-- Tables holding `itemC1` for case 1. -/
def dbC1 : DB := { cases := [1], schedule := [itemC1], payments := [] }

/-- A payment of 70 for case 1 linked to installment id 5. -/
def inputC1 : RecordPaymentInput :=
  { case_id := 1, schedule_id := some 5, payment_date := 9
    amount_mxn := 70, payment_type := .enganche }

/-- A pending installment with id 1 for case 2. -/
def itemC10 : PaymentScheduleItem :=
  { id := 1, case_id := 2, schedule_index := 0, payment_type := .reserva
    amount_mxn := 50000, due_date := 8, status := .pending
    paid_amount_mxn := 0, paid_date := none }

/-- Tables holding `itemC10` for case 2. -/
def dbC10 : DB := { cases := [2], schedule := [itemC10], payments := [] }

/-- A payment for case 2 linked to schedule id 9, which has no row. -/
def inputC10 : RecordPaymentInput :=
  { case_id := 2, schedule_id := some 9, payment_date := 6
    amount_mxn := 1000, payment_type := .mensualidad }

/-! ### C1 — the allocation step of `useRecordPayment` -/

/-- C1: for a payment linked via `schedule_id` to the unique matching
installment row, `useRecordPayment` succeeds and rewrites exactly that row
by the allocation step `applyPaymentToInstallment`: paid amount becomes
the old paid amount plus the payment amount (uncapped), `paid_date`
becomes the payment's date, and the status becomes `paid` when the new
paid amount reaches `amount_mxn`, else `partial`. -/
theorem recordPayment_allocation (db : DB) (input : RecordPaymentInput)
    (sid : Nat) (item : PaymentScheduleItem)
    (hcase : input.case_id ∈ db.cases)
    (hsid : input.schedule_id = some sid)
    (hfind : db.schedule.filter (fun it => it.id == sid) = [item]) :
    useRecordPayment db input =
      .ok (paymentRowOf input,
        { cases := db.cases
          schedule := db.schedule.map fun it =>
            if it.id == sid then
              applyPaymentToInstallment it input.amount_mxn input.payment_date
            else it
          payments := db.payments ++ [paymentRowOf input] }) := by
  have hmap : (db.schedule.map fun it =>
      if it.id == sid then
        { it with
          paid_amount_mxn := item.paid_amount_mxn + input.amount_mxn
          paid_date := some input.payment_date
          status :=
            if item.amount_mxn ≤ item.paid_amount_mxn + input.amount_mxn then
              ScheduleStatus.paid
            else ScheduleStatus.partPaid }
      else it) =
      db.schedule.map fun it =>
        if it.id == sid then
          applyPaymentToInstallment it input.amount_mxn input.payment_date
        else it := by
    apply List.map_congr_left
    intro a ha
    by_cases hp : a.id == sid
    · have haitem : a = item := eq_of_filter_eq_singleton hfind a ha hp
      subst haitem
      simp [hp, applyPaymentToInstallment]
    · simp [hp]
  have hc1 : db.cases.contains input.case_id = true := by simpa using hcase
  have hitem : item ∈ db.schedule ∧ (item.id == sid) = true := by
    have hmem : item ∈ db.schedule.filter (fun it => it.id == sid) := by
      rw [hfind]
      exact List.mem_singleton_self _
    exact List.mem_filter.mp hmem
  have hany : (db.schedule.any fun it => it.id == sid) = true :=
    List.any_eq_true.mpr ⟨item, hitem.1, hitem.2⟩
  have hall : (Option.all
      (fun sid => db.schedule.any fun it => it.id == sid) (some sid)) = true := by
    simpa using hany
  simp only [useRecordPayment, hsid, hc1, hall, Bool.and_self, if_true]
  rw [hfind, ← hmap]

/-- C1 witness: recording a 70 payment against installment id 5 of
`dbC1`. -/
theorem recordPayment_allocation_witness :
    useRecordPayment dbC1 inputC1 =
      .ok (paymentRowOf inputC1,
        { cases := dbC1.cases
          schedule := dbC1.schedule.map fun it =>
            if it.id == 5 then
              applyPaymentToInstallment it inputC1.amount_mxn
                inputC1.payment_date
            else it
          payments := dbC1.payments ++ [paymentRowOf inputC1] }) :=
  recordPayment_allocation dbC1 inputC1 5 itemC1 (by decide) rfl (by decide)

/-! ### C4 — the paid-status invariant -/

/-- C4 counterexample: allocating a 150 payment to a pending installment
with `amount_mxn = 100` sets status `paid` with `paid_amount_mxn = 150 >
100`: the invariant "amount paid ≤ amount due once status is paid" fails
on the code. -/
theorem allocation_overpaid_breaks_invariant :
    (applyPaymentToInstallment itemC4 150 7).status = .paid ∧
    ¬ (applyPaymentToInstallment itemC4 150 7).paid_amount_mxn ≤
        (applyPaymentToInstallment itemC4 150 7).amount_mxn := by
  norm_num [applyPaymentToInstallment, itemC4]

/-- C4 (amended): after at least one allocation, whenever the status is
`paid` the amount due is ≤ the amount paid (the engine sets `paid` exactly
when the new paid amount reaches the amount due; overpayment is kept, so
the inequality runs the other way than the claim stated). -/
theorem allocation_paid_means_fully_paid (item : PaymentScheduleItem)
    (p : ℚ × Nat) (ps : List (ℚ × Nat))
    (h : ((p :: ps).foldl
        (fun acc pd => applyPaymentToInstallment acc pd.1 pd.2) item).status
      = .paid) :
    ((p :: ps).foldl
        (fun acc pd => applyPaymentToInstallment acc pd.1 pd.2) item).amount_mxn ≤
    ((p :: ps).foldl
        (fun acc pd => applyPaymentToInstallment acc pd.1 pd.2) item).paid_amount_mxn := by
  induction ps generalizing item p with
  | nil =>
    rw [List.foldl_cons, List.foldl_nil] at h ⊢
    unfold applyPaymentToInstallment at h ⊢
    by_cases hle : item.amount_mxn ≤ item.paid_amount_mxn + p.1
    · simp [hle]
    · simp [hle] at h
  | cons q qs ih =>
    rw [List.foldl_cons] at h ⊢
    exact ih (applyPaymentToInstallment item p.1 p.2) q h

/-- C4 witness: paying 150 against `itemC4` (due 100) yields status
`paid` and due ≤ paid. -/
theorem allocation_paid_means_fully_paid_witness :
    ([((150 : ℚ), 7)].foldl
        (fun acc pd => applyPaymentToInstallment acc pd.1 pd.2) itemC4).amount_mxn ≤
    ([((150 : ℚ), 7)].foldl
        (fun acc pd => applyPaymentToInstallment acc pd.1 pd.2) itemC4).paid_amount_mxn :=
  allocation_paid_means_fully_paid itemC4 ((150 : ℚ), 7) []
    (by norm_num [applyPaymentToInstallment, itemC4])

/-! ### C5 — waived installments and status regressions -/

/-- C5 counterexample: recording a 10 payment linked to the waived
installment `itemC5` rewrites its status to `partial` — the engine does
auto-transition a waived installment. -/
theorem allocation_overwrites_waived :
    itemC5.status = .waived ∧
    useRecordPayment dbC5 inputC5 =
      .ok (paymentRowOf inputC5,
        { cases := [5]
          schedule := [applyPaymentToInstallment itemC5 10 4]
          payments := [paymentRowOf inputC5] }) ∧
    (applyPaymentToInstallment itemC5 10 4).status = .partPaid :=
  ⟨rfl, rfl, by norm_num [applyPaymentToInstallment, itemC5]⟩

/-- C5 (amended): the allocation step overwrites any prior status,
`waived` included: afterwards the status is always `paid` or `partial`,
never `pending` or `waived`; and an installment whose paid amount already
reached its amount due (in particular one the engine marked `paid`) stays
`paid` under a further nonnegative allocation. -/
theorem allocation_status_overwrite (item : PaymentScheduleItem)
    (amt : ℚ) (d : Nat) :
    ((applyPaymentToInstallment item amt d).status = .paid ∨
      (applyPaymentToInstallment item amt d).status = .partPaid) ∧
    (applyPaymentToInstallment item amt d).status ≠ .pending ∧
    (applyPaymentToInstallment item amt d).status ≠ .waived ∧
    (item.amount_mxn ≤ item.paid_amount_mxn → 0 ≤ amt →
      (applyPaymentToInstallment item amt d).status = .paid) := by
  unfold applyPaymentToInstallment
  by_cases hle : item.amount_mxn ≤ item.paid_amount_mxn + amt
  · simp [hle]
  · refine ⟨by simp [hle], by simp [hle], by simp [hle], ?_⟩
    intro hfull hamt
    exact absurd (le_add_of_le_of_nonneg hfull hamt) hle

/-- C5 witness: allocating 10 to the waived `itemC5`. -/
theorem allocation_status_overwrite_witness :
    ((applyPaymentToInstallment itemC5 10 4).status = .paid ∨
      (applyPaymentToInstallment itemC5 10 4).status = .partPaid) ∧
    (applyPaymentToInstallment itemC5 10 4).status ≠ .pending ∧
    (applyPaymentToInstallment itemC5 10 4).status ≠ .waived ∧
    (itemC5.amount_mxn ≤ itemC5.paid_amount_mxn → 0 ≤ (10 : ℚ) →
      (applyPaymentToInstallment itemC5 10 4).status = .paid) :=
  allocation_status_overwrite itemC5 10 4

/-! ### C6 — error propagation of `useRecordPayment` -/

lemma recordPayment_fk_iff (db : DB) (input : RecordPaymentInput) :
    (db.cases.contains input.case_id &&
      input.schedule_id.all
        (fun sid => db.schedule.any fun it => it.id == sid)) = true ↔
    input.case_id ∈ db.cases ∧
      ∀ sid, input.schedule_id = some sid →
        ∃ it ∈ db.schedule, it.id = sid := by
  rw [Bool.and_eq_true]
  constructor
  · rintro ⟨h1, h2⟩
    refine ⟨by simpa using h1, ?_⟩
    intro sid hs
    rw [hs] at h2
    have h3 : (db.schedule.any fun it => it.id == sid) = true := by
      simpa using h2
    obtain ⟨it, hmem, hbeq⟩ := List.any_eq_true.mp h3
    exact ⟨it, hmem, by simpa using hbeq⟩
  · rintro ⟨h1, h2⟩
    refine ⟨by simpa using h1, ?_⟩
    cases hs : input.schedule_id with
    | none => rfl
    | some sid =>
      obtain ⟨it, hmem, hid⟩ := h2 sid hs
      have hany : (db.schedule.any fun it => it.id == sid) = true :=
        List.any_eq_true.mpr ⟨it, hmem, by simpa using hid⟩
      simpa using hany

/-- C6: `useRecordPayment` fails when the case id or the linked
installment id does not exist at the time of the operation — the
`cms_payments` insert's foreign-key violation (the spec's
`NotFoundError`) is thrown and propagates to the caller as the
operation's result — and it fails in no other way: the operation
succeeds exactly when the case exists and the linked installment, if
any, exists. -/
theorem recordPayment_notFound (db : DB) (input : RecordPaymentInput) :
    (input.case_id ∉ db.cases →
      useRecordPayment db input = .error .foreignKeyViolation) ∧
    (∀ sid, input.schedule_id = some sid →
      (∀ it ∈ db.schedule, it.id ≠ sid) →
      useRecordPayment db input = .error .foreignKeyViolation) ∧
    ((useRecordPayment db input).isOk = true ↔
      input.case_id ∈ db.cases ∧
      ∀ sid, input.schedule_id = some sid →
        ∃ it ∈ db.schedule, it.id = sid) := by
  by_cases hb : (db.cases.contains input.case_id &&
      input.schedule_id.all
        (fun sid => db.schedule.any fun it => it.id == sid)) = true
  · obtain ⟨hc1, hc2⟩ := (recordPayment_fk_iff db input).mp hb
    have hok : (useRecordPayment db input).isOk = true := by
      simp only [useRecordPayment, if_pos hb]
      split
      · rfl
      · split <;> rfl
    refine ⟨fun h => absurd hc1 h, ?_, ?_⟩
    · intro sid hs hmiss
      obtain ⟨it, hmem, hid⟩ := hc2 sid hs
      exact absurd hid (hmiss it hmem)
    · exact ⟨fun _ => ⟨hc1, hc2⟩, fun _ => hok⟩
  · have herr : useRecordPayment db input = .error .foreignKeyViolation := by
      simp only [useRecordPayment, if_neg hb]
    refine ⟨fun _ => herr, fun _ _ _ => herr, ?_⟩
    rw [herr]
    constructor
    · intro h
      exact absurd h (by simp [Except.isOk, Except.toBool])
    · intro hrhs
      exact absurd ((recordPayment_fk_iff db input).mpr hrhs) hb

/-- C6 witness: a nonexistent case id and a nonexistent installment id
both fail with the insert's foreign-key error. -/
theorem recordPayment_notFound_witness :
    useRecordPayment dbC6 { inputC6 with case_id := 99 } =
      .error .foreignKeyViolation ∧
    useRecordPayment dbC6 inputC6 = .error .foreignKeyViolation :=
  ⟨(recordPayment_notFound dbC6 { inputC6 with case_id := 99 }).1
    (by decide),
   (recordPayment_notFound dbC6 inputC6).2.1 7 rfl (by decide)⟩

/-! ### C10 — missing installment row: the insert itself fails -/

/-- C10 counterexample: with the `schedule_id` foreign key of
`cms_payments` in force, recording a payment against the nonexistent
schedule id 9 of `dbC10` fails at the insert — the payment is *not*
inserted and returned as a successful result. -/
theorem recordPayment_dangling_schedule_insert_fails :
    (∀ it ∈ dbC10.schedule, it.id ≠ 9) ∧
    useRecordPayment dbC10 inputC10 = .error .foreignKeyViolation :=
  ⟨by decide, rfl⟩

/-- C10 (amended): when `schedule_id` refers to no existing installment
row, the `cms_payments` insert violates its `schedule_id REFERENCES
payment_schedule(id)` foreign key (`docs/MIGRATION_PLAN.md`):
`useRecordPayment` returns that error, so no payment is recorded and no
installment is modified — the hook's allocation-skip branch is
unreachable on such input. -/
theorem recordPayment_dangling_schedule_fk (db : DB)
    (input : RecordPaymentInput) (sid : Nat)
    (hs : input.schedule_id = some sid)
    (hmiss : ∀ it ∈ db.schedule, it.id ≠ sid) :
    useRecordPayment db input = .error .foreignKeyViolation := by
  have hb : ¬ (db.cases.contains input.case_id &&
      input.schedule_id.all
        (fun sid => db.schedule.any fun it => it.id == sid)) = true := by
    intro h
    obtain ⟨-, h2⟩ := (recordPayment_fk_iff db input).mp h
    obtain ⟨it, hmem, hid⟩ := h2 sid hs
    exact hmiss it hmem hid
  simp only [useRecordPayment, if_neg hb]

/-- C10 witness: the dangling schedule id 9 of `inputC10` makes the
insert fail on `dbC10`. -/
theorem recordPayment_dangling_schedule_fk_witness :
    useRecordPayment dbC10 inputC10 = .error .foreignKeyViolation :=
  recordPayment_dangling_schedule_fk dbC10 inputC10 9 rfl (by decide)

/-! ### C2 — `calculatePaymentTotals` -/

/-- Scenario E payments: 50,000 of non-refund payments and a 2,000
refund. -/
def paymentsE : List Payment :=
  [{ case_id := 9, schedule_id := none, payment_date := 1
     amount_mxn := 50000, payment_type := .enganche },
   { case_id := 9, schedule_id := none, payment_date := 2
     amount_mxn := 2000, payment_type := .refund }]

/-- Scenario E schedule: a single 60,000 installment. -/
def scheduleE : List PaymentScheduleItem :=
  [{ id := 1, case_id := 9, schedule_index := 0, payment_type := .reserva
     amount_mxn := 60000, due_date := 5, status := .pending
     paid_amount_mxn := 0, paid_date := none }]

/-- C2: `calculatePaymentTotals` returns the sum of non-refund payment
amounts as `totalPaid`, the sum of refund amounts as `totalRefunded`,
`balance = totalScheduled − totalPaid + totalRefunded`, and
`percentPaid = round2 (totalPaid / totalScheduled × 100)` when
`totalScheduled > 0` and `0` otherwise; on Scenario E (a 2,000 refund
against 50,000 of non-refund payments and a 60,000 schedule) it reports
`totalPaid = 50000`, `totalRefunded = 2000`, `balance = 60000 − 50000 +
2000 = 12000`. -/
theorem calculatePaymentTotals_spec :
    (∀ (payments : List Payment)
        (schedule : Option (List PaymentScheduleItem)),
      (calculatePaymentTotals payments schedule).totalPaid =
        ((payments.filter fun p => p.payment_type != .refund).map
          fun p => p.amount_mxn).sum ∧
      (calculatePaymentTotals payments schedule).totalRefunded =
        ((payments.filter fun p => p.payment_type == .refund).map
          fun p => p.amount_mxn).sum ∧
      (calculatePaymentTotals payments schedule).balance =
        (calculatePaymentTotals payments schedule).totalScheduled -
          (calculatePaymentTotals payments schedule).totalPaid +
          (calculatePaymentTotals payments schedule).totalRefunded ∧
      (calculatePaymentTotals payments schedule).percentPaid =
        (if 0 < (calculatePaymentTotals payments schedule).totalScheduled then
          round2 ((calculatePaymentTotals payments schedule).totalPaid /
            (calculatePaymentTotals payments schedule).totalScheduled * 100)
        else 0)) ∧
    calculatePaymentTotals paymentsE (some scheduleE) =
      { totalScheduled := 60000, totalPaid := 50000, totalRefunded := 2000
        balance := 12000, percentPaid := 8333 / 100 } := by
  constructor
  · intro payments schedule
    refine ⟨?_, ?_, ?_, ?_⟩
    · simp [calculatePaymentTotals, List.sum_eq_foldl, List.foldl_map]
    · simp [calculatePaymentTotals, List.sum_eq_foldl, List.foldl_map]
    · simp [calculatePaymentTotals]
    · by_cases h : 0 < (calculatePaymentTotals payments schedule).totalScheduled
      · simp only [if_pos h]
        simp only [calculatePaymentTotals] at h ⊢
        rw [if_pos h]
      · simp only [if_neg h]
        simp only [calculatePaymentTotals] at h ⊢
        rw [if_neg h]
        norm_num [round2]
  · have hb1 : (PaymentType.enganche != PaymentType.refund) = true := by decide
    have hb2 : (PaymentType.refund != PaymentType.refund) = false := by decide
    have hb3 : (PaymentType.enganche == PaymentType.refund) = false := by decide
    have hb4 : (PaymentType.refund == PaymentType.refund) = true := by decide
    simp only [calculatePaymentTotals, paymentsE, scheduleE, List.filter,
      hb1, hb2, hb3, hb4, List.foldl_cons, List.foldl_nil, round2]
    norm_num [Int.floor_eq_iff]

/-! ### C9 — the overdue selection -/

/-- Scenario D installment: pending, due day 10, amount 5,000, nothing
paid. -/
def itemD : PaymentScheduleItem :=
  { id := 4, case_id := 2, schedule_index := 0, payment_type := .mensualidad
    amount_mxn := 5000, due_date := 10, status := .pending
    paid_amount_mxn := 0, paid_date := none }

/-- An installment already carrying status `overdue`, due day 10. -/
def itemOv : PaymentScheduleItem :=
  { id := 6, case_id := 2, schedule_index := 1, payment_type := .mensualidad
    amount_mxn := 7000, due_date := 10, status := .overdue
    paid_amount_mxn := 0, paid_date := none }

/-- C9 counterexample: an installment with status `overdue` and
`due_date < today` is *not* selected by `useOverduePayments` — the query
filters on `status ∈ {pending, partial}` only, contradicting the claimed
selection set `{pending, partial, overdue}`. -/
theorem overdue_status_rows_not_selected :
    itemOv.status = .overdue ∧ itemOv.due_date < 11 ∧
    useOverduePayments 11 [itemOv] = [] :=
  ⟨rfl, by decide, rfl⟩

/-- C9 (amended): the hook `useOverduePayments` selects exactly the
installments with `due_date < today` and status `pending` or `partial` —
rows already persisted as `overdue` are *not* selected by the hook,
contrary to the claimed selection set — while the overdue amount (the
`case_summary` view's `overdue_amount_mxn`) sums `amount_due −
paid_amount` over the full set `{pending, partial, overdue}` with
`due_date < today`; for Scenario D (one pending installment due
yesterday, amount 5,000, nothing paid) the reported overdue amount is
5,000.00, and a 7,000 installment already marked `overdue` does count
into the amount (12,000 in total) even though the hook does not list
it. -/
theorem overdue_selection_spec :
    (∀ (today : Nat) (rows : List PaymentScheduleItem)
        (it : PaymentScheduleItem),
      it ∈ useOverduePayments today rows ↔
        it ∈ rows ∧ (it.status = .pending ∨ it.status = .partPaid) ∧
          it.due_date < today) ∧
    (∀ (today : Nat) (rows : List PaymentScheduleItem)
        (it : PaymentScheduleItem),
      it ∈ overdueRowsView today rows ↔
        it ∈ rows ∧
          (it.status = .pending ∨ it.status = .partPaid ∨
            it.status = .overdue) ∧ it.due_date < today) ∧
    overdueAmount 11 [itemD] = 5000 ∧
    overdueAmount 11 [itemD, itemOv] = 12000 := by
  refine ⟨?_, ?_, ?_, ?_⟩
  · intro today rows it
    simp [useOverduePayments, List.mem_filter, and_assoc]
  · intro today rows it
    simp [overdueRowsView, List.mem_filter, and_assoc, or_assoc]
  · norm_num [overdueAmount, overdueRowsView, itemD]
  · norm_num [overdueAmount, overdueRowsView, itemD, itemOv]

/-! ### C8 — `useGenerateSchedule` performs no validation -/

/-- A schedule-generation input whose monthly count is −1. -/
def inputC8 : GenerateScheduleInput :=
  { case_id := 1
    reservation := { amount := 50000, date := some 0 }
    down_payment := some { amount := 250000, date := some 30 }
    monthly := some { amount := 10000, count := -1, start_date := some 60 }
    final := some { amount := 100000, date := some 400 } }

/-- C8 counterexample: `useGenerateSchedule` accepts a monthly count of
−1 and succeeds — no `ValidationError` is raised (and sale price is not
even among its inputs). -/
theorem generateSchedule_accepts_negative_count :
    (inputC8.monthly.map fun m => m.count) = some (-1) ∧
    (useGenerateSchedule inputC8).isOk = true :=
  ⟨rfl, rfl⟩

/-- C8 (amended): `useGenerateSchedule` performs no input validation —
the sale price is not among its inputs; a negative monthly count yields a
successful generation that simply contains no monthly installment; the
only failure it signals is the date error thrown for an unparseable
monthly start date when `count > 0` (a thrown date `RangeError`, not a
`ValidationError`). -/
theorem generateSchedule_no_validation
    (input : GenerateScheduleInput) (m : MonthlyPart)
    (hm : input.monthly = some m) :
    (m.count < 0 →
      useGenerateSchedule input =
        .ok ([reservationRow input] ++ downRows input ++
          finalRows input (1 + (downRows input).length)) ∧
      ∀ r ∈ [reservationRow input] ++ downRows input ++
          finalRows input (1 + (downRows input).length),
        r.payment_type ≠ .mensualidad) ∧
    (0 < m.count → m.start_date = none →
      useGenerateSchedule input = .error .invalidDate) := by
  constructor
  · intro hneg
    have hnot : ¬ 0 < m.count := by omega
    constructor
    · simp [useGenerateSchedule, hm, hnot]
    · intro r hr
      simp only [List.mem_append, List.mem_singleton] at hr
      rcases hr with (rfl | hrd) | hrf
      · simp [reservationRow]
      · rcases hd : input.down_payment with _ | d
        · simp [downRows, hd] at hrd
        · simp [downRows, hd] at hrd
          subst hrd; simp
      · rcases hf : input.final with _ | f
        · simp [finalRows, hf] at hrf
        · simp [finalRows, hf] at hrf
          subst hrf; simp
  · intro hpos hnone
    simp [useGenerateSchedule, hm, hpos, hnone]

/-- C8 witness: the count-(−1) input generates successfully with no
monthly rows. -/
theorem generateSchedule_no_validation_witness :
    (-1 : Int) < 0 ∧
    (useGenerateSchedule inputC8 =
      .ok ([reservationRow inputC8] ++ downRows inputC8 ++
        finalRows inputC8 (1 + (downRows inputC8).length)) ∧
    ∀ r ∈ [reservationRow inputC8] ++ downRows inputC8 ++
        finalRows inputC8 (1 + (downRows inputC8).length),
      r.payment_type ≠ .mensualidad) :=
  ⟨by decide,
   (generateSchedule_no_validation inputC8
      { amount := 10000, count := -1, start_date := some 60 } rfl).1
     (by decide)⟩

/-! ### C3 — structure of the generated schedule -/

lemma map_index_concat {l1 l2 : List NewScheduleRow} {s : ℕ}
    (h1 : l1.map (fun r => r.schedule_index) = List.range' s l1.length)
    (h2 : l2.map (fun r => r.schedule_index) =
      List.range' (s + l1.length) l2.length) :
    (l1 ++ l2).map (fun r => r.schedule_index) =
      List.range' s (l1 ++ l2).length := by
  rw [List.map_append, h1, h2, List.length_append]
  simp [Nat.add_comm, List.range'_append s l1.length l2.length 1]

lemma downRows_index (input : GenerateScheduleInput) :
    (downRows input).map (fun r => r.schedule_index) =
      List.range' 1 (downRows input).length := by
  unfold downRows
  cases input.down_payment <;> simp [List.range']

lemma monthlyRows_index (input : GenerateScheduleInput) (idx : Nat)
    (m : MonthlyPart) (s : Nat) :
    (monthlyRows input idx m s).map (fun r => r.schedule_index) =
      List.range' idx (monthlyRows input idx m s).length := by
  simp [monthlyRows, List.map_map, List.range'_eq_map_range, Function.comp]

lemma monthlyRows_length (input : GenerateScheduleInput) (idx : Nat)
    (m : MonthlyPart) (s : Nat) :
    (monthlyRows input idx m s).length = m.count.toNat := by
  simp [monthlyRows]

lemma finalRows_index (input : GenerateScheduleInput) (k : Nat) :
    (finalRows input k).map (fun r => r.schedule_index) =
      List.range' k (finalRows input k).length := by
  unfold finalRows
  cases input.final <;> simp [List.range']

lemma downRows_types (input : GenerateScheduleInput) :
    (downRows input).map (fun r => r.payment_type) =
      (match input.down_payment with
       | some _ => [PaymentType.enganche]
       | none => []) := by
  unfold downRows
  cases input.down_payment <;> simp

lemma finalRows_types (input : GenerateScheduleInput) (k : Nat) :
    (finalRows input k).map (fun r => r.payment_type) =
      (match input.final with
       | some _ => [PaymentType.entrega]
       | none => []) := by
  unfold finalRows
  cases input.final <;> simp

lemma monthlyRows_types (input : GenerateScheduleInput) (idx : Nat)
    (m : MonthlyPart) (s : Nat) :
    (monthlyRows input idx m s).map (fun r => r.payment_type) =
      List.replicate m.count.toNat PaymentType.mensualidad := by
  refine List.eq_replicate_iff.mpr ⟨by simp [monthlyRows], ?_⟩
  intro b hb
  simp only [monthlyRows, List.map_map, List.mem_map] at hb
  obtain ⟨i, _, rfl⟩ := hb
  rfl

lemma downRows_status (input : GenerateScheduleInput) :
    ∀ r ∈ downRows input,
      r.status = ScheduleStatus.pending ∧ r.paid_amount_mxn = 0 := by
  unfold downRows
  cases input.down_payment with
  | none => simp
  | some d =>
    intro r hr
    simp only [List.mem_singleton] at hr
    subst hr
    exact ⟨rfl, rfl⟩

lemma finalRows_status (input : GenerateScheduleInput) (k : Nat) :
    ∀ r ∈ finalRows input k,
      r.status = ScheduleStatus.pending ∧ r.paid_amount_mxn = 0 := by
  unfold finalRows
  cases input.final with
  | none => simp
  | some f =>
    intro r hr
    simp only [List.mem_singleton] at hr
    subst hr
    exact ⟨rfl, rfl⟩

lemma monthlyRows_status (input : GenerateScheduleInput) (idx : Nat)
    (m : MonthlyPart) (s : Nat) :
    ∀ r ∈ monthlyRows input idx m s,
      r.status = ScheduleStatus.pending ∧ r.paid_amount_mxn = 0 := by
  intro r hr
  simp only [monthlyRows, List.mem_map] at hr
  obtain ⟨i, _, rfl⟩ := hr
  exact ⟨rfl, rfl⟩

/-- The number of monthly rows a generated schedule should contain. -/
def monthlyCountOf (input : GenerateScheduleInput) : Nat :=
  match input.monthly with
  | some m => m.count.toNat
  | none => 0

lemma generateSchedule_shape (input : GenerateScheduleInput)
    (rows : List NewScheduleRow)
    (hok : useGenerateSchedule input = .ok rows) :
    ∃ M : List NewScheduleRow,
      rows = [reservationRow input] ++ downRows input ++ M ++
        finalRows input (1 + (downRows input).length + M.length) ∧
      M.map (fun r => r.schedule_index) =
        List.range' (1 + (downRows input).length) M.length ∧
      M.map (fun r => r.payment_type) =
        List.replicate (monthlyCountOf input) PaymentType.mensualidad ∧
      M.length = monthlyCountOf input ∧
      (∀ r ∈ M, r.status = ScheduleStatus.pending ∧ r.paid_amount_mxn = 0) := by
  unfold useGenerateSchedule at hok
  rcases hm : input.monthly with _ | m
  · rw [hm] at hok
    simp only [Except.ok.injEq] at hok
    refine ⟨[], ?_, by simp, by simp [monthlyCountOf, hm], by simp [monthlyCountOf, hm], by simp⟩
    simp [← hok]
  · rw [hm] at hok
    by_cases hc : 0 < m.count
    · simp only [hc, if_true] at hok
      rcases hs : m.start_date with _ | s
      · rw [hs] at hok
        simp at hok
      · rw [hs] at hok
        simp only [Except.ok.injEq] at hok
        refine ⟨monthlyRows input (1 + (downRows input).length) m s,
          ?_, ?_, ?_, ?_, ?_⟩
        · rw [← hok, monthlyRows_length]
        · exact monthlyRows_index input _ m s
        · simpa [monthlyCountOf, hm] using monthlyRows_types input _ m s
        · simp [monthlyRows, monthlyCountOf, hm]
        · exact monthlyRows_status input _ m s
    · simp only [hc, if_false] at hok
      simp only [Except.ok.injEq] at hok
      have hz : m.count.toNat = 0 := Int.toNat_eq_zero.mpr (by omega)
      refine ⟨[], ?_, by simp, by simp [monthlyCountOf, hm, hz],
        by simp [monthlyCountOf, hm, hz], by simp⟩
      simp [← hok]

/-- C3: a successfully generated schedule has zero-based contiguous,
strictly increasing sequence indices, its categories follow the fixed
order reservation → down-payment → monthly (`count` entries when
`count ≥ 0`) → final, with at most one reservation, at most one
down-payment and at most one final entry, and every generated installment
has status `pending` and paid amount 0. -/
theorem generateSchedule_structure (input : GenerateScheduleInput)
    (rows : List NewScheduleRow)
    (hok : useGenerateSchedule input = .ok rows) :
    rows.map (fun r => r.schedule_index) = List.range rows.length ∧
    rows.map (fun r => r.payment_type) =
      [PaymentType.reserva] ++
      (match input.down_payment with
       | some _ => [PaymentType.enganche]
       | none => []) ++
      List.replicate (monthlyCountOf input) PaymentType.mensualidad ++
      (match input.final with
       | some _ => [PaymentType.entrega]
       | none => []) ∧
    (rows.filter (fun r => r.payment_type == .reserva)).length ≤ 1 ∧
    (rows.filter (fun r => r.payment_type == .enganche)).length ≤ 1 ∧
    (rows.filter (fun r => r.payment_type == .entrega)).length ≤ 1 ∧
    (∀ m, input.monthly = some m → 0 ≤ m.count →
      ((rows.filter (fun r => r.payment_type == .mensualidad)).length : Int)
        = m.count) ∧
    (∀ r ∈ rows, r.status = ScheduleStatus.pending ∧ r.paid_amount_mxn = 0) := by
  obtain ⟨M, rfl, hMidx, hMtype, hMlen, hMstat⟩ :=
    generateSchedule_shape input rows hok
  have h0 : ([reservationRow input]).map (fun r => r.schedule_index) =
      List.range' 0 ([reservationRow input]).length := by
    simp [reservationRow, List.range']
  have h01 := map_index_concat h0 (by
    rw [show 0 + ([reservationRow input]).length = 1 by simp]
    exact downRows_index input)
  have h012 := map_index_concat h01 (by
    rw [show 0 + ([reservationRow input] ++ downRows input).length =
        1 + (downRows input).length by
      simp only [List.length_append, List.length_singleton]; omega]
    exact hMidx)
  have h0123 := map_index_concat h012 (by
    rw [show 0 + ([reservationRow input] ++ downRows input ++ M).length =
        1 + (downRows input).length + M.length by
      simp only [List.length_append, List.length_singleton]; omega]
    exact finalRows_index input (1 + (downRows input).length + M.length))
  have htypes : (([reservationRow input] ++ downRows input ++ M ++
      finalRows input (1 + (downRows input).length + M.length)).map
        (fun r => r.payment_type)) =
      [PaymentType.reserva] ++
      (match input.down_payment with
       | some _ => [PaymentType.enganche]
       | none => []) ++
      List.replicate (monthlyCountOf input) PaymentType.mensualidad ++
      (match input.final with
       | some _ => [PaymentType.entrega]
       | none => []) := by
    simp only [List.map_append, hMtype, downRows_types, finalRows_types]
    simp [reservationRow]
  have hcount : ∀ t : PaymentType,
      ((([reservationRow input] ++ downRows input ++ M ++
        finalRows input (1 + (downRows input).length + M.length)).filter
          (fun r => r.payment_type == t)).length) =
      ((([PaymentType.reserva] ++
        (match input.down_payment with
         | some _ => [PaymentType.enganche]
         | none => []) ++
        List.replicate (monthlyCountOf input) PaymentType.mensualidad ++
        (match input.final with
         | some _ => [PaymentType.entrega]
         | none => [])).filter (fun x => x == t)).length) := by
    intro t
    rw [← List.countP_eq_length_filter, ← List.countP_eq_length_filter,
      ← htypes, List.countP_map]
    rfl
  refine ⟨?_, htypes, ?_, ?_, ?_, ?_, ?_⟩
  · rw [List.range_eq_range']
    exact h0123
  · rw [hcount]
    rcases input.down_payment <;> rcases input.final <;>
      simp [List.filter_append, List.filter_replicate]
  · rw [hcount]
    rcases input.down_payment <;> rcases input.final <;>
      simp [List.filter_append, List.filter_replicate]
  · rw [hcount]
    rcases input.down_payment <;> rcases input.final <;>
      simp [List.filter_append, List.filter_replicate]
  · intro m hm hmc
    rw [hcount]
    have : monthlyCountOf input = m.count.toNat := by
      simp [monthlyCountOf, hm]
    rcases input.down_payment <;> rcases input.final <;>
      simp [List.filter_append, List.filter_replicate, this,
        Int.toNat_of_nonneg hmc]
  · intro r hr
    simp only [List.append_assoc, List.mem_append, List.mem_singleton] at hr
    rcases hr with rfl | hrd | hrm | hrf
    · exact ⟨rfl, rfl⟩
    · exact downRows_status input r hrd
    · exact hMstat r hrm
    · exact finalRows_status input _ r hrf

/-- A minimal schedule-generation input: reservation only. -/
def inputC3 : GenerateScheduleInput :=
  { case_id := 3
    reservation := { amount := 1000, date := some 5 }
    down_payment := none
    monthly := none
    final := none }

/-- C3 witness: the reservation-only input generates a singleton schedule
satisfying all the structural properties. -/
theorem generateSchedule_structure_witness :
    ([reservationRow inputC3]).map (fun r => r.schedule_index) =
      List.range ([reservationRow inputC3]).length ∧
    ([reservationRow inputC3]).map (fun r => r.payment_type) =
      [PaymentType.reserva] ++
      (match inputC3.down_payment with
       | some _ => [PaymentType.enganche]
       | none => []) ++
      List.replicate (monthlyCountOf inputC3) PaymentType.mensualidad ++
      (match inputC3.final with
       | some _ => [PaymentType.entrega]
       | none => []) ∧
    (([reservationRow inputC3]).filter
      (fun r => r.payment_type == .reserva)).length ≤ 1 ∧
    (([reservationRow inputC3]).filter
      (fun r => r.payment_type == .enganche)).length ≤ 1 ∧
    (([reservationRow inputC3]).filter
      (fun r => r.payment_type == .entrega)).length ≤ 1 ∧
    (∀ m, inputC3.monthly = some m → 0 ≤ m.count →
      ((([reservationRow inputC3]).filter
        (fun r => r.payment_type == .mensualidad)).length : Int) = m.count) ∧
    (∀ r ∈ [reservationRow inputC3],
      r.status = ScheduleStatus.pending ∧ r.paid_amount_mxn = 0) :=
  generateSchedule_structure inputC3 [reservationRow inputC3] rfl

/-! ### C7 — the schedule total approximates the sale price -/

lemma abs_round2_sub_le (x : ℚ) : |round2 x - x| ≤ 1 / 200 := by
  unfold round2
  have h1 : ((⌊x * 100 + 1 / 2⌋ : ℤ) : ℚ) ≤ x * 100 + 1 / 2 :=
    Int.floor_le _
  have h2 : x * 100 + 1 / 2 < ((⌊x * 100 + 1 / 2⌋ : ℤ) : ℚ) + 1 :=
    Int.lt_floor_add_one _
  rw [abs_le]
  constructor <;> linarith

lemma round2_nonneg {x : ℚ} (hx : 0 ≤ x) : 0 ≤ round2 x := by
  unfold round2
  apply div_nonneg _ (by norm_num)
  have h : (0 : ℤ) ≤ ⌊x * 100 + 1 / 2⌋ := Int.floor_nonneg.mpr (by linarith)
  exact_mod_cast h

lemma sum_map_const_range (count : ℕ) (M : ℚ) :
    ((List.range count).map (fun _ => M)).sum = count * M := by
  induction count with
  | zero => simp
  | succ n ih =>
    rw [List.range_succ, List.map_append, List.sum_append, ih]
    push_cast
    simp
    ring

lemma generateSchedule_total_pos (D M F : ℚ) (count : ℕ)
    (hD : 0 < D) (hF : 0 ≤ F) (hc : 0 < count) (hM : 0 < M) :
    scheduleTotal (generateSchedule D M F count) = D + count * M + F ∧
    count + 2 ≤ (generateSchedule D M F count).length := by
  have hcm : 0 < count ∧ 0 < M := ⟨hc, hM⟩
  by_cases hFp : 0 < F
  · constructor
    · simp only [scheduleTotal, generateSchedule, if_pos hD, if_pos hcm,
        if_pos hFp, List.map_append, List.map_map, List.sum_append,
        List.map_cons, List.map_nil, List.sum_cons, List.sum_nil,
        Function.comp_def]
      rw [sum_map_const_range]
      ring
    · simp only [generateSchedule, if_pos hD, if_pos hcm, if_pos hFp,
        List.length_append, List.length_map, List.length_range,
        List.length_cons, List.length_nil]
      omega
  · have hF0 : F = 0 := le_antisymm (not_lt.mp hFp) hF
    constructor
    · simp only [scheduleTotal, generateSchedule, if_pos hD, if_pos hcm,
        if_neg hFp, List.map_append, List.map_map, List.sum_append,
        List.map_cons, List.map_nil, List.sum_cons, List.sum_nil,
        Function.comp_def]
      rw [sum_map_const_range, hF0]
      ring
    · simp only [generateSchedule, if_pos hD, if_pos hcm, if_neg hFp,
        List.length_append, List.length_map, List.length_range,
        List.length_cons, List.length_nil]
      omega

lemma generateSchedule_total_zero (D M F : ℚ)
    (hD : 0 < D) (hF : 0 ≤ F) :
    scheduleTotal (generateSchedule D M F 0) = D + F ∧
    2 ≤ (generateSchedule D M F 0).length := by
  have hcm : ¬ (0 < 0 ∧ 0 < M) := by simp
  by_cases hFp : 0 < F
  · constructor
    · simp only [scheduleTotal, generateSchedule, if_pos hD, if_neg hcm,
        if_pos hFp, List.map_append, List.sum_append,
        List.map_cons, List.map_nil, List.sum_cons, List.sum_nil]
      ring
    · simp only [generateSchedule, if_pos hD, if_neg hcm, if_pos hFp,
        List.length_append, List.length_cons, List.length_nil]
      omega
  · have hF0 : F = 0 := le_antisymm (not_lt.mp hFp) hF
    constructor
    · simp only [scheduleTotal, generateSchedule, if_pos hD, if_neg hcm,
        if_neg hFp, List.map_append, List.sum_append,
        List.map_cons, List.map_nil, List.sum_cons, List.sum_nil]
      rw [hF0]
      ring
    · simp only [generateSchedule, if_pos hD, if_neg hcm, if_neg hFp,
        List.length_append, List.length_cons, List.length_nil]
      omega

/-- C7: for a sale price and plan accepted by `recalculate` (sale price
positive, a positive down payment, positive monthly amount whenever the
plan has monthly payments, and percentages summing to 100 for plans
without monthly payments), the amounts of the schedule generated by
`CaseNew`'s `generateSchedule` sum to the sale price within
`(number of installments) × 0.01`. -/
theorem caseNew_schedule_total (salePrice downPct finalPct : ℚ)
    (count : ℕ) (r : RecalcResult)
    (hrec : recalculate salePrice downPct finalPct count = some r)
    (hfin : 0 ≤ finalPct)
    (hdown : 0 < r.downPaymentMxn)
    (hmon : 0 < count → 0 < r.monthlyAmount)
    (hzero : count = 0 → downPct + finalPct = 100) :
    |scheduleTotal (generateSchedule r.downPaymentMxn r.monthlyAmount
        r.finalPaymentMxn count) - salePrice| ≤
      ((generateSchedule r.downPaymentMxn r.monthlyAmount
        r.finalPaymentMxn count).length : ℚ) * (1 / 100) := by
  unfold recalculate at hrec
  by_cases hsp : salePrice ≤ 0
  · rw [if_pos hsp] at hrec
    cases hrec
  · rw [if_neg hsp] at hrec
    simp only [Option.some.injEq] at hrec
    subst hrec
    dsimp only at hdown hmon ⊢
    have hsp' : 0 < salePrice := lt_of_not_le hsp
    have hFnn : 0 ≤ round2 (salePrice * finalPct / 100) :=
      round2_nonneg (by positivity)
    by_cases hc : 0 < count
    · rw [if_pos hc] at hmon ⊢
      have hM : 0 < round2 ((salePrice - round2 (salePrice * downPct / 100) -
          round2 (salePrice * finalPct / 100)) / (count : ℚ)) := hmon hc
      obtain ⟨htot, hlen⟩ := generateSchedule_total_pos _ _ _ count hdown
        hFnn hc hM
      rw [htot]
      set D := round2 (salePrice * downPct / 100) with hD
      set F := round2 (salePrice * finalPct / 100) with hF
      set T := salePrice - D - F with hT
      set M := round2 (T / (count : ℚ)) with hMdef
      have hcne : ((count : ℚ)) ≠ 0 := by
        exact_mod_cast Nat.pos_iff_ne_zero.mp hc
      have hsplit : D + (count : ℚ) * M + F - salePrice =
          (count : ℚ) * (M - T / (count : ℚ)) := by
        field_simp
        ring
      rw [hsplit, abs_mul, abs_of_nonneg (by positivity : (0:ℚ) ≤ (count : ℚ))]
      have hbound := abs_round2_sub_le (T / (count : ℚ))
      have hlen' : (count : ℚ) + 2 ≤
          ((generateSchedule D M F count).length : ℚ) := by
        exact_mod_cast hlen
      calc (count : ℚ) * |M - T / (count : ℚ)|
          ≤ (count : ℚ) * (1 / 200) := by
            apply mul_le_mul_of_nonneg_left _ (by positivity)
            exact hbound
        _ ≤ ((generateSchedule D M F count).length : ℚ) * (1 / 100) := by
            linarith
    · have hc0 : count = 0 := by omega
      subst hc0
      rw [if_neg hc]
      have hpct : downPct + finalPct = 100 := hzero rfl
      obtain ⟨htot, hlen⟩ := generateSchedule_total_zero
        (round2 (salePrice * downPct / 100)) 0
        (round2 (salePrice * finalPct / 100)) hdown hFnn
      rw [htot]
      set D := round2 (salePrice * downPct / 100) with hD
      set F := round2 (salePrice * finalPct / 100) with hF
      have ha := abs_round2_sub_le (salePrice * downPct / 100)
      have hb := abs_round2_sub_le (salePrice * finalPct / 100)
      have hsum : salePrice * downPct / 100 + salePrice * finalPct / 100 =
          salePrice := by
        field_simp
        linear_combination salePrice * hpct
      have hrearr : D + F - salePrice =
          (D - salePrice * downPct / 100) + (F - salePrice * finalPct / 100) := by
        linear_combination hsum
      have hkey : |D + F - salePrice| ≤ 1 / 100 := by
        calc |D + F - salePrice|
            = |(D - salePrice * downPct / 100) +
                (F - salePrice * finalPct / 100)| := by rw [hrearr]
          _ ≤ |D - salePrice * downPct / 100| +
                |F - salePrice * finalPct / 100| := abs_add _ _
          _ ≤ 1 / 200 + 1 / 200 := add_le_add ha hb
          _ = 1 / 100 := by norm_num
      have hlen' : (2 : ℚ) ≤ ((generateSchedule D 0 F 0).length : ℚ) := by
        exact_mod_cast hlen
      calc |D + F - salePrice| ≤ 1 / 100 := hkey
        _ ≤ ((generateSchedule D 0 F 0).length : ℚ) * (1 / 100) := by
            linarith

/-- C7 witness: Scenario A — sale price 1,000,000.00 under the 30/60/10
plan (36 monthly payments): down 300,000.00, monthly 16,666.67, final
100,000.00. -/
theorem caseNew_schedule_total_witness :
    |scheduleTotal (generateSchedule (300000 : ℚ) (1666667 / 100) 100000 36)
        - 1000000| ≤
      ((generateSchedule (300000 : ℚ) (1666667 / 100) 100000 36).length : ℚ)
        * (1 / 100) :=
  caseNew_schedule_total 1000000 30 10 36
    { downPaymentMxn := 300000, monthlyAmount := 1666667 / 100
      finalPaymentMxn := 100000 }
    (by norm_num [recalculate, round2, Int.floor_eq_iff])
    (by norm_num) (by norm_num) (fun _ => by norm_num)
    (by intro h; simp at h)

end Mana88
